import Mathlib

/-!
Verification development for the microhcl single-header HCL parser
(`include/hcl/hcl.hpp`).  The definitions below are a shallow embedding of
the C++ source: the byte stream is a `List Char` (the inputs of interest are
ASCII, so one `Char` per byte), machine integers are `Int` with explicit
clamping/wrapping where the C++ narrows, and functions that can throw
(`failwith`) return `Except String`.  Loops are given explicit fuel; every
top-level wrapper supplies fuel that exceeds the number of loop steps any
input of that size can take, so on concrete inputs the embedding computes
exactly what the C++ does.
-/

namespace MicroHCL

/-- Token types, mirroring `enum class TokenType` in the source. -/
inductive TokenType where
  | ILLEGAL
  | END_OF_FILE
  | COMMENT
  | IDENT
  | NUMBER
  | FLOAT
  | BOOL
  | STRING
  | HEREDOC
  | LBRACK
  | LBRACE
  | COMMA
  | PERIOD
  | RBRACK
  | RBRACE
  | ASSIGN
  | ADD
  | SUB
deriving Repr, DecidableEq

/-- A token: a type tag plus the payload slots of `class Token`.  The C++
constructors fill only one slot and leave the rest default-constructed; the
defaults here play that role. -/
structure Token where
  type : TokenType
  strValue : String := ""
  intValue : Int := 0
  doubleValue : Rat := 0
deriving Repr, DecidableEq

/-- C-locale `isalpha` on the ASCII range, as used by the lexer. -/
def isAlphaC (c : Char) : Bool :=
  (65 ≤ c.toNat && c.toNat ≤ 90) || (97 ≤ c.toNat && c.toNat ≤ 122)

/-- C-locale `isdigit`. -/
def isDigitC (c : Char) : Bool :=
  48 ≤ c.toNat && c.toNat ≤ 57

/-- `isValidIdentChar` from the source: letters, digits, underscore, hyphen
and, notably, the period. -/
def isValidIdentChar (c : Char) : Bool :=
  isAlphaC c || isDigitC c || c == '_' || c == '-' || c == '.'

/-- `isWhitespace` from the source. -/
def isWhitespaceC (c : Char) : Bool :=
  c == ' ' || c == '\t' || c == '\r' || c == '\n'

/-- One digit run of `isInteger`/`isDouble`: consumes digits, allowing a
single underscore between digit groups; an underscore not followed by a
digit makes the whole classification fail (`none`).  Returns the unconsumed
suffix and whether at least one digit was seen. -/
def digitRun : List Char → Bool → Option (List Char × Bool)
  | [], saw => some ([], saw)
  | c :: cs, saw =>
    if isDigitC c then
      match cs with
      | '_' :: d :: t => if isDigitC d then digitRun (d :: t) true else none
      | '_' :: [] => none
      | [] => some ([], true)
      | d :: t => digitRun (d :: t) true
    else some (c :: cs, saw)

/-- Strip one leading sign character, as the classification loops do. -/
def stripSign : List Char → List Char
  | c :: rest => if c = '+' ∨ c = '-' then rest else c :: rest
  | [] => []

/-- `isInteger` from the source: `[+-]?\d+(_\d+)*` — except that, exactly as
in the C++ index loop, a lone sign with no digits also satisfies the final
`p == s.size()` check. -/
def isInteger (s : List Char) : Bool :=
  match s with
  | [] => false
  | _ =>
    match digitRun (stripSign s) false with
    | some ([], _) => true
    | _ => false

/-- `isDouble` from the source: optional integer part, optional fraction,
optional exponent, at least one digit before the exponent. -/
def isDouble (s : List Char) : Bool :=
  match s with
  | [] => false
  | _ =>
    match digitRun (stripSign s) false with
    | none => false
    | some (r1, ok1) =>
      let r2 := match r1 with
        | '.' :: t => t
        | _ => r1
      match digitRun r2 ok1 with
      | none => false
      | some (r3, ok3) =>
        if !ok3 then false
        else
          match r3 with
          | e :: t =>
            if e = 'e' ∨ e = 'E' then
              match digitRun (stripSign t) false with
              | none => false
              | some (r4, ok4) => ok4 && r4 == []
            else false
          | [] => true

/-- `removeDelimiter`: drop underscores. -/
def removeDelimiter (s : List Char) : List Char :=
  s.filter (· ≠ '_')

/-- Value of a digit string. -/
def digitsToNat (l : List Char) : Nat :=
  l.foldl (fun a c => a * 10 + (c.toNat - 48)) 0

def int64Max : Int := 9223372036854775807

def int64Min : Int := -9223372036854775808

/-- Models `std::stringstream >> x` for `int64_t x` on strings of the shape
`[+-]?digits*` (all the lexer ever feeds it): an empty digit run stores 0,
and an out-of-range value is clamped to the representable extreme.  The
stream's failbit is ignored by the caller, so the clamped value is what the
token carries. -/
def readInt64 (s : List Char) : Int :=
  let p := match s with
    | c :: rest => if c = '+' then (false, rest) else if c = '-' then (true, rest) else (false, s)
    | [] => (false, s)
  let v : Int := (digitsToNat p.2 : Int)
  let v := if p.1 then -v else v
  if v < int64Min then int64Min else if int64Max < v then int64Max else v

/-- Models `std::stringstream >> d` for `double d` on a delimiter-stripped
literal that passed `isDouble`, idealised as the exact decimal rational.
IEEE-754 rounding is not modelled; no claim depends on a FLOAT token's
numeric value. -/
def readRat (s : List Char) : Rat :=
  let p := match s with
    | c :: rest => if c = '+' then (false, rest) else if c = '-' then (true, rest) else (false, s)
    | [] => (false, s)
  let ip := p.2.takeWhile isDigitC
  let s1 := p.2.dropWhile isDigitC
  let fps := match s1 with
    | '.' :: t => (t.takeWhile isDigitC, t.dropWhile isDigitC)
    | _ => ([], s1)
  let es := match fps.2 with
    | e :: t =>
      if e = 'e' ∨ e = 'E' then
        match t with
        | c :: t2 =>
          if c = '+' then (false, t2.takeWhile isDigitC)
          else if c = '-' then (true, t2.takeWhile isDigitC)
          else (false, t.takeWhile isDigitC)
        | [] => (false, ([] : List Char))
      else (false, ([] : List Char))
    | [] => (false, ([] : List Char))
  let mant : Rat := (digitsToNat ip : Rat) + (digitsToNat fps.1 : Rat) / ((10 : Rat) ^ fps.1.length)
  let mant := if p.1 then -mant else mant
  if es.1 then mant / (10 : Rat) ^ digitsToNat es.2 else mant * (10 : Rat) ^ digitsToNat es.2

/-- `unescape`: encode the code point named by a hex string as UTF-8 bytes
(each byte one `Char`), exactly as the C++ bit fiddling does; the result is
read back as a NUL-terminated C string, so a leading zero byte yields the
empty sequence. -/
def unescape (codepoint : List Char) : List Char :=
  let hexVal := codepoint.foldl (fun a c =>
    a * 16 + (if isDigitC c then c.toNat - 48
              else if 65 ≤ c.toNat && c.toNat ≤ 70 then c.toNat - 55
              else c.toNat - 87)) 0
  let x := hexVal
  let bytes : List Nat :=
    if x ≤ 0x7F then [x &&& 0x7F]
    else if x ≤ 0x7FF then [0xC0 ||| ((x >>> 6) &&& 0xDF), 0x80 ||| (x &&& 0xBF)]
    else if x ≤ 0xFFFF then
      [0xE0 ||| ((x >>> 12) &&& 0xEF), 0x80 ||| ((x >>> 6) &&& 0xBF), 0x80 ||| (x &&& 0xBF)]
    else if x ≤ 0x10FFFF then
      [0xF0 ||| ((x >>> 18) &&& 0xF7), 0x80 ||| ((x >>> 12) &&& 0xBF),
       0x80 ||| ((x >>> 6) &&& 0xBF), 0x80 ||| (x &&& 0xBF)]
    else []
  (bytes.takeWhile (· ≠ 0)).map Char.ofNat

/-- The lexer's state: the unread suffix of the stream plus the line/column
counters of `class Lexer` (`lineNo_` 1-based, `columnNo_` 0-based, reset on
newline). -/
structure LexState where
  input : List Char
  lineNo : Nat := 1
  colNo : Nat := 0
deriving Repr, DecidableEq

/-- `current`: peek without consuming. -/
def lcurrent (st : LexState) : Option Char :=
  st.input.head?

/-- `next`: consume one character, maintaining line and column exactly as
`Lexer::next` does (the end-of-stream case is never reached, every call
site being guarded by `current`). -/
def lnext (st : LexState) : LexState :=
  match st.input with
  | [] => { st with colNo := st.colNo + 1 }
  | c :: rest =>
    if c = '\n' then { input := rest, lineNo := st.lineNo + 1, colNo := 0 }
    else { input := rest, lineNo := st.lineNo, colNo := st.colNo + 1 }

/-- `consume(c)`: advance iff the current character is `c`. -/
def lconsume (c : Char) (st : LexState) : Bool × LexState :=
  match lcurrent st with
  | none => (false, st)
  | some x => if x = c then (true, lnext st) else (false, st)

/-- Recursion core of `skipUntilNewLine`; every consumed character is a
non-newline, so only the column advances. -/
def skipUntilNewLineAux : List Char → Nat → Nat → LexState
  | [], line, col => ⟨[], line, col⟩
  | c :: rest, line, col =>
    if c = '\n' then ⟨c :: rest, line, col⟩
    else skipUntilNewLineAux rest line (col + 1)

/-- `skipUntilNewLine`: consume up to, but not including, the next newline. -/
def skipUntilNewLine (st : LexState) : LexState :=
  skipUntilNewLineAux st.input st.lineNo st.colNo

/-- Recursion core of the whitespace run consumed after an escaped newline
inside an interpolation. -/
def skipWsRunAux : List Char → Nat → Nat → LexState
  | [], line, col => ⟨[], line, col⟩
  | c :: rest, line, col =>
    if c = ' ' ∨ c = '\t' ∨ c = '\r' ∨ c = '\n' then
      if c = '\n' then skipWsRunAux rest (line + 1) 0
      else skipWsRunAux rest line (col + 1)
    else ⟨c :: rest, line, col⟩

/-- The whitespace-skipping loop of the escaped-newline case inside a
double-quoted string: `while (current && (sp|tab|cr|nl)) next`. -/
def skipWsRun (st : LexState) : LexState :=
  skipWsRunAux st.input st.lineNo st.colNo

/-- Shorthand for an ILLEGAL token carrying a diagnostic. -/
def illegalTok (msg : String) : Token :=
  { type := .ILLEGAL, strValue := msg }

/-- Read the `size`-character hex run of a `\x`/`\u`/`\U` escape; a non-hex
character (or end of stream) aborts with the truncated-state error the C++
returns there. -/
def readHexRun : Nat → LexState → List Char → Except LexState (List Char × LexState)
  | 0, st, acc => .ok (acc, st)
  | n + 1, st, acc =>
    match lcurrent st with
    | some c =>
      if isDigitC c || (65 ≤ c.toNat && c.toNat ≤ 70) || (97 ≤ c.toNat && c.toNat ≤ 102) then
        readHexRun n (lnext st) (acc ++ [c])
      else .error st
    | none => .error st

/-- The body loop of `Lexer::nextStringDoubleQuote`, with the interpolation
brace counter and the one-character `dollar` lookahead threaded through.
`fuel` only bounds the iteration count; each iteration consumes at least one
character, so any fuel exceeding the remaining input length is enough. -/
def dqLoop : Nat → LexState → List Char → Nat → Bool → Token × LexState
  | 0, st, _, _, _ => (illegalTok "out of fuel", st)
  | fuel + 1, st, s, braces, dollar =>
    match lcurrent st with
    | none => (illegalTok "string didn't end", st)
    | some c =>
      let st := lnext st
      let braces :=
        if braces == 0 && dollar && c == '\x7b' then braces + 1
        else if braces > 0 && c == '\x7b' then braces + 1
        else braces
      let braces := if braces > 0 && c == '\x7d' then braces - 1 else braces
      let dollar := braces == 0 && c == '$'
      if c == '\\' then
        match lcurrent st with
        | none => (illegalTok "string has unknown escape sequence", st)
        | some e =>
          let st := lnext st
          if e == 't' then dqLoop fuel st (s ++ ['\t']) braces dollar
          else if e == 'n' then dqLoop fuel st (s ++ ['\n']) braces dollar
          else if e == 'r' then dqLoop fuel st (s ++ ['\r']) braces dollar
          else if e == 'x' || e == 'u' || e == 'U' then
            let size := if e == 'x' then 2 else if e == 'u' then 4 else 8
            match readHexRun size st [] with
            | .error st2 => (illegalTok "string has unknown escape sequence", st2)
            | .ok (cp, st2) => dqLoop fuel st2 (s ++ unescape cp) braces dollar
          else if e == '"' then dqLoop fuel st (s ++ ['"']) braces dollar
          else if e == '\'' then dqLoop fuel st (s ++ ['\'']) braces dollar
          else if e == '\\' then dqLoop fuel st (s ++ ['\\']) braces dollar
          else if e == '\n' then
            if braces == 0 then (illegalTok "literal not terminated", st)
            else dqLoop fuel (skipWsRun st) s braces dollar
          else (illegalTok "string has unknown escape sequence", st)
      else if c == '\n' && braces == 0 then
        (illegalTok "found newline while parsing non-HIL string literal", st)
      else if c == '"' && braces == 0 then
        ({ type := .STRING, strValue := String.mk s }, st)
      else dqLoop fuel st (s ++ [c]) braces dollar

/-- `Lexer::nextStringDoubleQuote`. -/
def nextStringDoubleQuote (fuel : Nat) (st : LexState) : Token × LexState :=
  match lconsume '"' st with
  | (false, st) => (illegalTok "string didn't start with '\"'", st)
  | (true, st) =>
    match lcurrent st with
    | some '"' =>
      let st := lnext st
      match lcurrent st with
      | some '"' => (illegalTok "string didn't end", st)
      | _ => ({ type := .STRING, strValue := "" }, st)
    | _ => dqLoop fuel st [] 0 false

/-- The body loop of `Lexer::nextStringSingleQuote`. -/
def sqLoop : Nat → LexState → List Char → Token × LexState
  | 0, st, _ => (illegalTok "out of fuel", st)
  | fuel + 1, st, s =>
    match lcurrent st with
    | none => (illegalTok "string didn't end with '''?", st)
    | some c =>
      let st := lnext st
      if c = '\'' then ({ type := .STRING, strValue := String.mk s }, st)
      else if c = '\n' then
        (illegalTok "found newline while parsing string literal", st)
      else sqLoop fuel st (s ++ [c])

/-- `Lexer::nextStringSingleQuote`. -/
def nextStringSingleQuote (fuel : Nat) (st : LexState) : Token × LexState :=
  match lconsume '\'' st with
  | (false, st) => (illegalTok "string didn't start with '''?", st)
  | (true, st) =>
    match lcurrent st with
    | some '\'' =>
      let st := lnext st
      match lcurrent st with
      | some '\'' => (illegalTok "string didn't end with '' ?", st)
      | _ => ({ type := .STRING, strValue := "" }, st)
    | _ => sqLoop fuel st []

/-- The anchor-reading loop of `nextHereDoc`:
`while (current && (isalpha || isdigit)) { anchor += c; next(); }`. -/
def hdAnchor : List Char → Nat → Nat → List Char → List Char × LexState
  | [], line, col, acc => (acc, ⟨[], line, col⟩)
  | c :: rest, line, col, acc =>
    if isAlphaC c || isDigitC c then hdAnchor rest line (col + 1) (acc ++ [c])
    else (acc, ⟨c :: rest, line, col⟩)

/-- The indent-stripping inner loop of the heredoc body:
`while (current(&c) && remain > 0) { if (c != ' ') return ILLEGAL; next(); remain--; }`.
The `&&` evaluates `current(&c)` first, so even at `remain = 0` the loop
condition overwrites `c` with the peeked character; the returned `Char` is
the value the C++ variable `c` holds after the loop (threaded on, because a
later `line += c` can read it). `Except.error` is the early ILLEGAL return. -/
def hdStrip : Nat → LexState → Char → Except LexState (LexState × Char)
  | remain, st, c =>
    match lcurrent st with
    | none => .ok (st, c)
    | some c2 =>
      match remain with
      | 0 => .ok (st, c2)
      | r + 1 => if c2 ≠ ' ' then .error st else hdStrip r (lnext st) c2

/-- The body loop of `Lexer::nextHereDoc`, with the `buffer`/`line`
accumulators.  An iteration consumes at least the one `next()` at the top,
so fuel exceeding the remaining input length never runs out.  The trailing
`line += c` appends the freshly *peeked* character (or, at end of stream,
the last value `c` received), exactly as the C++ does. -/
def hdLoop : Nat → LexState → List Char → List Char → List Char → Nat → Token × LexState
  | 0, st, _, _, _, _ => (illegalTok "out of fuel", st)
  | fuel + 1, st, anchor, buffer, line, indent =>
    match lcurrent st with
    | none => (illegalTok "heredoc not terminated", st)
    | some cTop =>
      let st := lnext st
      let strip : Except LexState (LexState × Char) :=
        if line = [] then hdStrip indent st cTop else .ok (st, cTop)
      match strip with
      | .error st2 => (illegalTok "expected heredoc to be properly indented", st2)
      | .ok (st, c) =>
        match lcurrent st with
        | some c2 =>
          if c2 = '\n' then
            let buffer := (if buffer = [] then [] else buffer ++ ['\n']) ++ line
            if ([] : List Char) = anchor then
              hdFinish (buffer ++ ['\n']) st
            else hdLoop fuel st anchor buffer [] indent
          else
            let line := line ++ [c2]
            if line = anchor then hdFinish (buffer ++ ['\n']) st
            else hdLoop fuel st anchor buffer line indent
        | none =>
          let line := line ++ [c]
          if line = anchor then hdFinish (buffer ++ ['\n']) st
          else hdLoop fuel st anchor buffer line indent
where
  /-- After `break`: `if (current) { next(); return HEREDOC; } else ILLEGAL`. -/
  hdFinish (buffer : List Char) (st : LexState) : Token × LexState :=
    match lcurrent st with
    | some _ => ({ type := .HEREDOC, strValue := String.mk buffer }, lnext st)
    | none => (illegalTok "heredoc not terminated", st)

/-- `Lexer::nextHereDoc`: consume `<<`, the optional `-` (recording the
strip indent as `columnNo() - 2`, the 0-based column of the first `<`),
the anchor and its newline, then run the body loop. -/
def nextHereDoc (fuel : Nat) (st : LexState) : Token × LexState :=
  match lconsume '<' st with
  | (false, st) => (illegalTok "heredoc didn't start with '<<'?", st)
  | (true, st) =>
    match lconsume '<' st with
    | (false, st) => (illegalTok "heredoc didn't start with '<<'?", st)
    | (true, st) =>
      let indented := lcurrent st = some '-'
      let indent := if indented then st.colNo - 2 else 0
      let st := if indented then lnext st else st
      let p := hdAnchor st.input st.lineNo st.colNo []
      let anchor := p.1
      let st := p.2
      match lcurrent st with
      | none => (illegalTok "end of file reached", st)
      | some c0 =>
        let st := if c0 = '\r' then skipUntilNewLine st else st
        match lcurrent st with
        | none => (illegalTok "invalid characters in heredoc anchor", st)
        | some c1 =>
          if c1 ≠ '\n' then (illegalTok "invalid characters in heredoc anchor", st)
          else if anchor = [] then (illegalTok "zero-length heredoc anchor", st)
          else hdLoop fuel st anchor [] [] indent

/-- The identifier-continuation loop of `nextValueToken`. -/
def identRun : List Char → Nat → Nat → List Char → List Char × LexState
  | [], line, col, acc => (acc, ⟨[], line, col⟩)
  | c :: rest, line, col, acc =>
    if isValidIdentChar c then identRun rest line (col + 1) (acc ++ [c])
    else (acc, ⟨c :: rest, line, col⟩)

/-- The numeric-run loop of `nextNumber`: greedily consume characters from
`0-9 . e E T Z _ : - +`. -/
def numRun : List Char → Nat → Nat → List Char → List Char × LexState
  | [], line, col, acc => (acc, ⟨[], line, col⟩)
  | c :: rest, line, col, acc =>
    if isDigitC c || c = '.' || c = 'e' || c = 'E' || c = 'T' || c = 'Z' ||
        c = '_' || c = ':' || c = '-' || c = '+' then
      numRun rest line (col + 1) (acc ++ [c])
    else (acc, ⟨c :: rest, line, col⟩)

/-- `Lexer::nextNumber`: collect the run (with any leading `.`/`-` the
caller already consumed), then classify as integer, float, or illegal. -/
def nextNumber (st : LexState) (leadingDot leadingSub : Bool) : Token × LexState :=
  let s0 : List Char := (if leadingDot then ['.'] else []) ++ (if leadingSub then ['-'] else [])
  let p := numRun st.input st.lineNo st.colNo s0
  let s := p.1
  let st := p.2
  if isInteger s then ({ type := .NUMBER, intValue := readInt64 (removeDelimiter s) }, st)
  else if isDouble s then ({ type := .FLOAT, doubleValue := readRat (removeDelimiter s) }, st)
  else (illegalTok "Invalid token", st)

/-- `Lexer::nextValueToken`: identifier / reserved bool, else a number. -/
def nextValueToken (st : LexState) : Token × LexState :=
  match lcurrent st with
  | some c =>
    if isAlphaC c || c = '_' then
      let p := identRun (lnext st).input (lnext st).lineNo (lnext st).colNo [c]
      let s := String.mk p.1
      if s = "true" then ({ type := .BOOL, intValue := 1 }, p.2)
      else if s = "false" then ({ type := .BOOL, intValue := 0 }, p.2)
      else ({ type := .IDENT, strValue := s }, p.2)
    else nextNumber st false false
  | none => nextNumber st false false

/-- `Lexer::nextToken`.  The fuel only bounds the whitespace/comment
skipping loop (each pass consumes at least one character) and is handed on
to the string/heredoc sub-lexers. -/
def nextToken : Nat → LexState → Token × LexState
  | 0, st => (illegalTok "out of fuel", st)
  | fuel + 1, st =>
    match lcurrent st with
    | none => ({ type := .END_OF_FILE }, st)
    | some c =>
      if isWhitespaceC c then nextToken fuel (lnext st)
      else if c = '#' then nextToken fuel (skipUntilNewLine st)
      else if c = '=' then ({ type := .ASSIGN, strValue := "=" }, lnext st)
      else if c = '+' then ({ type := .ADD, strValue := "+" }, lnext st)
      else if c = '-' then
        let st := lnext st
        match lcurrent st with
        | some d =>
          if isDigitC d then nextNumber st false true
          else ({ type := .SUB, strValue := "-" }, st)
        | none => ({ type := .SUB, strValue := "-" }, st)
      else if c = '\x7b' then ({ type := .LBRACE, strValue := "\x7b" }, lnext st)
      else if c = '\x7d' then ({ type := .RBRACE, strValue := "\x7d" }, lnext st)
      else if c = '[' then ({ type := .LBRACK, strValue := "[" }, lnext st)
      else if c = ']' then ({ type := .RBRACK, strValue := "]" }, lnext st)
      else if c = ',' then ({ type := .COMMA, strValue := "," }, lnext st)
      else if c = '.' then
        let st := lnext st
        match lcurrent st with
        | some d =>
          if isDigitC d then nextNumber st true false
          else ({ type := .PERIOD, strValue := "." }, st)
        | none => ({ type := .PERIOD, strValue := "." }, st)
      else if c = '"' then nextStringDoubleQuote fuel st
      else if c = '\'' then nextStringSingleQuote fuel st
      else if c = '<' then nextHereDoc fuel st
      else if c = '/' then
        let st := lnext st
        match lcurrent st with
        | some d =>
          if d = '/' then nextToken fuel (skipUntilNewLine st)
          else (illegalTok "unterminated comment", st)
        | none => (illegalTok "unterminated comment", st)
      else nextValueToken st

/-- Run the lexer once with ample fuel (every loop iteration of every
sub-lexer consumes at least one input character, so `length + 1` never runs
out). -/
def nextTokenFull (st : LexState) : Token × LexState :=
  nextToken (st.input.length + 1) st

/-- The first token of a string, starting from a fresh lexer. -/
def lexFirstToken (s : String) : Token :=
  (nextTokenFull ⟨s.toList, 1, 0⟩).1

/-!
The `Value` tree.  `Object` is a string-keyed map; the C++ default build
uses `std::unordered_map`, whose iteration order is unspecified and whose
equality is key-set based, so the association list below (unique keys,
insertion order) is one faithful representative.  `Double` carries the
idealised `Rat` payload of `readRat`.
-/

/-- The tagged variant of `class Value`. -/
inductive Value where
  | null
  | bool (b : Bool)
  | int (i : Int)
  | double (d : Rat)
  | str (s : String)
  | list (l : List Value)
  | object (o : List (String × Value))
deriving Repr

/-- `unordered_map::find`, on the association-list model. -/
def objFind (o : List (String × Value)) (k : String) : Option Value :=
  match o with
  | [] => none
  | (k2, v) :: rest => if k2 = k then some v else objFind rest k

/-- `unordered_map::operator[] = v`: replace in place when the key exists,
otherwise insert (modelled as append). -/
def objSet (o : List (String × Value)) (k : String) (v : Value) : List (String × Value) :=
  match o with
  | [] => [(k, v)]
  | (k2, v2) :: rest => if k2 = k then (k2, v) :: rest else (k2, v2) :: objSet rest k v

/-- `valid()`: every variant but Null. -/
def Value.validB : Value → Bool
  | .null => false
  | _ => true

/-- `is<Object>()`. -/
def Value.isObjectB : Value → Bool
  | .object _ => true
  | _ => false

/-- `is<List>()`. -/
def Value.isListB : Value → Bool
  | .list _ => true
  | _ => false

/-- `typeToString`, used in `failwith` diagnostics. -/
def Value.typeToString : Value → String
  | .null => "null"
  | .bool _ => "bool"
  | .int _ => "int"
  | .double _ => "double"
  | .str _ => "string"
  | .list _ => "list"
  | .object _ => "object"

/-- The message `assureType<T>` fails with. -/
def assureTypeMsg (v : Value) (requested : String) : String :=
  "type error: this value is " ++ v.typeToString ++ " but " ++ requested ++ " was requested"

/-- `findChild(key)`: direct child lookup (call sites guarantee the value
is an Object; on any other variant the C++ `assert` would fire and the map
is absent, so the lookup is vacuous). -/
def Value.findChild : Value → String → Option Value
  | .object o, k => objFind o k
  | _, _ => none

/-- Replace/insert a direct child of an Object value. -/
def Value.objReplace : Value → String → Value → Value
  | .object o, k, v => .object (objSet o k v)
  | v, _, _ => v

/-- The walk of `Value::find(const std::string&)`: lex the key string with
a throwaway lexer; each loop turn requires an `IDENT` or `STRING` token,
then a `PERIOD` (descend through an Object child) or `END_OF_FILE` (final
child lookup).  `fuel` bounds the loop; each turn consumes at least one
character of the key, so `length + 2` is ample. -/
def findLoop : Nat → LexState → Value → Option Value
  | 0, _, _ => none
  | fuel + 1, lx, current =>
    let p := nextTokenFull lx
    let t := p.1
    let lx := p.2
    if t.type ≠ .IDENT ∧ t.type ≠ .STRING then none
    else
      let part := t.strValue
      let p2 := nextTokenFull lx
      let t2 := p2.1
      let lx := p2.2
      match t2.type with
      | .PERIOD =>
        match current.findChild part with
        | some child => if child.isObjectB then findLoop fuel lx child else none
        | none => none
      | .END_OF_FILE => current.findChild part
      | _ => none

/-- `Value::find(key)` (const overload; the mutable one delegates to it). -/
def Value.findKey (v : Value) (key : String) : Option Value :=
  if v.isObjectB then findLoop (key.length + 2) ⟨key.toList, 1, 0⟩ v else none

/-- The same walk as `findLoop`, but rebuilding the tree with `f` applied
to the found node: this is how mutation through the pointer returned by
`Value::find` (as in `existing->push(added)` inside `mergeObjects`) acts on
the tree. -/
def updAtLoop : Nat → LexState → Value → (Value → Value) → Option Value
  | 0, _, _, _ => none
  | fuel + 1, lx, current, f =>
    let p := nextTokenFull lx
    let t := p.1
    let lx := p.2
    if t.type ≠ .IDENT ∧ t.type ≠ .STRING then none
    else
      let part := t.strValue
      let p2 := nextTokenFull lx
      let t2 := p2.1
      let lx := p2.2
      match t2.type with
      | .PERIOD =>
        match current.findChild part with
        | some child =>
          if child.isObjectB then
            match updAtLoop fuel lx child f with
            | some child2 => some (current.objReplace part child2)
            | none => none
          else none
        | none => none
      | .END_OF_FILE =>
        match current.findChild part with
        | some child => some (current.objReplace part (f child))
        | none => none
      | _ => none

/-- Apply `f` to the node `Value::find(key)` returns, rebuilding the tree. -/
def Value.updateAtKey (v : Value) (key : String) (f : Value → Value) : Option Value :=
  if v.isObjectB then updAtLoop (key.length + 2) ⟨key.toList, 1, 0⟩ v f else none

/-- The walk of `Value::ensureValue` fused with the final assignment that
`Value::set` performs through the returned pointer: create/descend an
Object per `PERIOD`-separated segment (`failwith` on a non-Object
intermediate or a key that does not lex to `IDENT`/`STRING` segments), and
install `x` at the final segment.  `current` is always an Object here. -/
def ensureSetLoop : Nat → LexState → Value → Value → Except String Value
  | 0, _, _, _ => .error "out of fuel"
  | fuel + 1, lx, current, x =>
    let p := nextTokenFull lx
    let t := p.1
    let lx := p.2
    if t.type ≠ .IDENT ∧ t.type ≠ .STRING then .error "invalid key"
    else
      let part := t.strValue
      let p2 := nextTokenFull lx
      let t2 := p2.1
      let lx := p2.2
      match t2.type with
      | .PERIOD =>
        match current.findChild part with
        | some cand =>
          if cand.isObjectB then
            match ensureSetLoop fuel lx cand x with
            | .ok sub => .ok (current.objReplace part sub)
            | .error e => .error e
          else .error "encountered non object value"
        | none =>
          match ensureSetLoop fuel lx (.object []) x with
          | .ok sub => .ok (current.objReplace part sub)
          | .error e => .error e
      | .END_OF_FILE => .ok (current.objReplace part x)
      | _ => .error "invalid key"

/-- `Value::set(key, v)`: `ensureValue` (promoting a Null receiver to an
empty Object, failing on any other non-Object receiver) followed by
assignment through the returned pointer. -/
def Value.setKey (v : Value) (key : String) (x : Value) : Except String Value :=
  let v0 := match v with
    | .null => Value.object []
    | w => w
  match v0 with
  | .object _ => ensureSetLoop (key.length + 2) ⟨key.toList, 1, 0⟩ v0 x
  | _ => .error "encountered non object value"

/-- The wrapping loop of `Value::mergeObjects` for `keys.size() > 1`: build
`parent` by setting each key after the first to a fresh empty Object and
descending through the pointer `set` returns, installing `v` at the last
key.  Pointer threading into a freshly created empty node is exactly
recursion into that node. -/
def wrapKeys : List String → Value → Except String Value
  | [], v => .ok v
  | [k], v => (Value.object []).setKey k v
  | k :: k2 :: rest, v =>
    match wrapKeys (k2 :: rest) v with
    | .ok sub => (Value.object []).setKey k sub
    | .error e => .error e

/-- `Value::mergeObjects(keys, added)`: wrap under all keys but the first,
then dispatch on what the first key currently holds — absent: plain `set`;
a List: `push` through the `find` pointer; anything else: replace by the
two-element list `[existing, wrapped]`.  (`keys` is never empty at the call
site; an empty list would dereference `keys.front()` in the C++.) -/
def Value.mergeObjects (self : Value) (keys : List String) (added : Value) : Except String Value :=
  match keys with
  | [] => .error "mergeObjects: empty keys"
  | k1 :: rest =>
    match (if rest.length > 0 then wrapKeys rest added else .ok added) with
    | .error e => .error e
    | .ok inner =>
      match self.findKey k1 with
      | some existing =>
        match existing with
        | .list l =>
          match self.updateAtKey k1 (fun _ => .list (l ++ [inner])) with
          | some self2 => .ok self2
          | none => .error "mergeObjects: find and update disagree"
        | _ => self.setKey k1 (.list [existing, inner])
      | none => self.setKey k1 inner

/-!
The parser.  Every C++ parser method reports failure through a bool return
after recording a message with `addError`; `failwith` exceptions escaping
from `Value` operations (only reachable through `mergeObjects`) are the
`Except.error` channel here.
-/

/-- The parser's state: its lexer, the one-token lookahead, and the
accumulated `errorReason_` string. -/
structure PState where
  lex : LexState
  tok : Token
  errorReason : String := ""
deriving Repr

/-- One formatted line of `Parser::addError`. -/
def errLine (lineNo : Nat) (reason : String) : String :=
  "Error: line " ++ toString lineNo ++ ": " ++ reason ++ "\n"

/-- `Parser::addError`: append (not replace) the formatted message. -/
def addError (st : PState) (reason : String) : PState :=
  { st with errorReason := st.errorReason ++ errLine st.lex.lineNo reason }

/-- `Parser::nextToken`. -/
def pNext (st : PState) : PState :=
  let p := nextTokenFull st.lex
  { st with tok := p.1, lex := p.2 }

/-- `Lexer::skipUTF8BOM`, using raw `get` (no line/column updates). -/
def skipUTF8BOM (st : LexState) : Bool × LexState :=
  match st.input with
  | [] => (true, st)
  | c :: rest =>
    if c.toNat ≠ 0xEF then (true, st)
    else
      match rest with
      | [] => (false, { st with input := [] })
      | c2 :: rest2 =>
        if c2.toNat ≠ 0xBB then (false, { st with input := rest2 })
        else
          match rest2 with
          | [] => (false, { st with input := [] })
          | c3 :: rest3 =>
            if c3.toNat ≠ 0xBF then (false, { st with input := rest3 })
            else (true, { st with input := rest3 })

/-- The `Parser` constructor: skip a UTF-8 BOM (an incomplete one plants an
ILLEGAL token) and otherwise read the first lookahead token. -/
def mkParser (s : String) : PState :=
  let lx : LexState := ⟨s.toList, 1, 0⟩
  match skipUTF8BOM lx with
  | (false, lx) => { lex := lx, tok := illegalTok "Invalid UTF8 BOM" }
  | (true, lx) =>
    let p := nextTokenFull lx
    { lex := p.2, tok := p.1 }

/-- The loop of `Parser::parseKeys`, threading the key vector and
`keyCount`.  Returns the C++ bool, the keys, and the state. -/
def parseKeysLoop : Nat → PState → List String → Nat → Bool × List String × PState
  | 0, st, keys, _ => (false, keys, st)
  | fuel + 1, st, keys, keyCount =>
    match st.tok.type with
    | .END_OF_FILE => (false, keys, addError st "end of file reached")
    | .ASSIGN =>
      if keyCount > 1 then
        (false, keys, addError st ("nested object expected: LBRACE got: " ++ st.tok.strValue))
      else if keyCount == 0 then
        (false, keys, addError st "expected to find at least one object key")
      else (true, keys, st)
    | .LBRACE =>
      if keys.length == 0 then (false, keys, addError st "expected IDENT | STRING got: LBRACE")
      else (true, keys, st)
    | .IDENT => parseKeysLoop fuel (pNext st) (keys ++ [st.tok.strValue]) (keyCount + 1)
    | .STRING => parseKeysLoop fuel (pNext st) (keys ++ [st.tok.strValue]) (keyCount + 1)
    | .ILLEGAL => (false, keys, addError st "illegal character")
    | _ =>
      (false, keys,
        addError st ("expected IDENT | STRING | ASSIGN | LBRACE got: " ++ st.tok.strValue))

/-- `Parser::parseLiteralType`: turn the current token into a scalar
Value. -/
def parseLiteralType (st : PState) : Bool × Value × PState :=
  match st.tok.type with
  | .STRING => (true, .str st.tok.strValue, st)
  | .HEREDOC => (true, .str st.tok.strValue, st)
  | .IDENT => (true, .str st.tok.strValue, st)
  | .BOOL => (true, .bool (st.tok.intValue ≠ 0), st)
  | .NUMBER => (true, .int st.tok.intValue, st)
  | .FLOAT => (true, .double st.tok.doubleValue, st)
  | .ILLEGAL => (false, .null, addError st st.tok.strValue)
  | _ => (false, .null, addError st "unexpected token")

mutual

/-- The `while (true)` loop of `Parser::parseObjectList`, carrying the
accumulating `node`.  A failing `parseKeys` or `parseObjectItem` replaces
`node` by the invalid (Null) value and stops. -/
def parseObjectListLoop : Nat → Bool → PState → Value → Except String (Value × PState)
  | 0, _, st, _ => .error ("out of fuel at line " ++ toString st.lex.lineNo)
  | fuel + 1, isNested, st, node =>
    if st.tok.type = .END_OF_FILE then .ok (node, st)
    else if isNested ∧ st.tok.type = .RBRACE then .ok (node, st)
    else
      match parseKeysLoop (fuel + 1) st [] 0 with
      | (false, _, st) => .ok (.null, st)
      | (true, keys, st) =>
        match parseObjectItem fuel st with
        | .error e => .error e
        | .ok (false, _, st) => .ok (.null, st)
        | .ok (true, v, st) =>
          let st := pNext st
          let st := if st.tok.type = .COMMA then pNext st else st
          match node.mergeObjects keys v with
          | .error e => .error e
          | .ok node2 => parseObjectListLoop fuel isNested st node2

/-- `Parser::parseObjectItem`: dispatch on `=` vs `{`. -/
def parseObjectItem : Nat → PState → Except String (Bool × Value × PState)
  | 0, st => .error ("out of fuel at line " ++ toString st.lex.lineNo)
  | fuel + 1, st =>
    match st.tok.type with
    | .ASSIGN => parseObject fuel st
    | .LBRACE => parseObjectType fuel st
    | _ =>
      .ok (false, .null, addError st "Expected start of object ('\x7b') or assignment ('=')")

/-- `Parser::parseObject`: advance past `=` and parse the right-hand
side. -/
def parseObject : Nat → PState → Except String (Bool × Value × PState)
  | 0, st => .error ("out of fuel at line " ++ toString st.lex.lineNo)
  | fuel + 1, st =>
    let st := pNext st
    match st.tok.type with
    | .NUMBER => .ok (parseLiteralType st)
    | .FLOAT => .ok (parseLiteralType st)
    | .BOOL => .ok (parseLiteralType st)
    | .STRING => .ok (parseLiteralType st)
    | .HEREDOC => .ok (parseLiteralType st)
    | .IDENT => .ok (parseLiteralType st)
    | .LBRACE => parseObjectType fuel st
    | .LBRACK => parseListType fuel st
    | .COMMENT => .ok (false, .null, addError st ("Unknown token: " ++ st.tok.strValue))
    | .END_OF_FILE => .ok (false, .null, addError st "Reached end of file")
    | _ => .ok (false, .null, addError st ("Unknown token: " ++ st.tok.strValue))

/-- `Parser::parseObjectType`: brace-delimited nested object list.  Note:
exactly as in the source, the validity of `result` is never checked — if
the nested list failed while leaving the lookahead at `RBRACE`, the Null
result is handed back with `true`. -/
def parseObjectType : Nat → PState → Except String (Bool × Value × PState)
  | 0, st => .error ("out of fuel at line " ++ toString st.lex.lineNo)
  | fuel + 1, st =>
    if st.tok.type ≠ .LBRACE then
      .ok (false, .null, addError st "object list did not start with LBRACE")
    else
      let st := pNext st
      match parseObjectList fuel true st with
      | .error e => .error e
      | .ok (result, st) =>
        if st.errorReason ≠ "" ∧ st.tok.type ≠ .RBRACE then
          .ok (false, .null, addError st "failed parsing object list")
        else if st.tok.type ≠ .RBRACE then
          .ok (false, .null,
            addError st ("object expected closing RBRACE got: " ++ st.tok.strValue))
        else .ok (true, result, st)

/-- The loop of `Parser::parseListType`, carrying the accumulator and the
`needComma` flag. -/
def parseListLoop : Nat → PState → List Value → Bool → Except String (Bool × Value × PState)
  | 0, st, _, _ => .error ("out of fuel at line " ++ toString st.lex.lineNo)
  | fuel + 1, st, a, needComma =>
    let st := pNext st
    if needComma ∧ st.tok.type ≠ .COMMA ∧ st.tok.type ≠ .RBRACK then
      .ok (false, .null,
        addError st ("error parsing list, expected comma or list end, got: " ++ st.tok.strValue))
    else
      match st.tok.type with
      | .BOOL => parseListLit fuel st a
      | .NUMBER => parseListLit fuel st a
      | .FLOAT => parseListLit fuel st a
      | .STRING => parseListLit fuel st a
      | .HEREDOC => parseListLit fuel st a
      | .IDENT => parseListLit fuel st a
      | .COMMA => parseListLoop fuel st a false
      | .LBRACE =>
        match parseObjectType fuel st with
        | .error e => .error e
        | .ok (false, _, st) => .ok (false, .null, addError st "error parsing object within list")
        | .ok (true, obj, st) => parseListLoop fuel st (a ++ [obj]) true
      | .LBRACK =>
        match parseListType fuel st with
        | .error e => .error e
        | .ok (false, _, st) => .ok (false, .null, addError st "error parsing list within list")
        | .ok (true, lst, st) => parseListLoop fuel st (a ++ [lst]) needComma
      | .RBRACK => .ok (true, .list a, st)
      | _ =>
        .ok (false, .null,
          addError st ("unexpected token while parsing list: " ++ st.tok.strValue))

/-- The literal case of the list loop (shared by the six literal token
types): parse the literal, append, and require a comma next. -/
def parseListLit : Nat → PState → List Value → Except String (Bool × Value × PState)
  | 0, st, _ => .error ("out of fuel at line " ++ toString st.lex.lineNo)
  | fuel + 1, st, a =>
    match parseLiteralType st with
    | (false, _, st) => .ok (false, .null, addError st "error parsing literal type")
    | (true, lit, st) => parseListLoop fuel st (a ++ [lit]) true

/-- `Parser::parseListType`. -/
def parseListType : Nat → PState → Except String (Bool × Value × PState)
  | 0, st => .error ("out of fuel at line " ++ toString st.lex.lineNo)
  | fuel + 1, st => parseListLoop fuel st [] false

/-- `Parser::parseObjectList`: run the statement loop on a fresh Object
node. -/
def parseObjectList : Nat → Bool → PState → Except String (Value × PState)
  | 0, _, st => .error ("out of fuel at line " ++ toString st.lex.lineNo)
  | fuel + 1, isNested, st => parseObjectListLoop fuel isNested st (.object [])

end

/-- `Parser::parse` on a string input, returning the final value together
with the final parser state (whose `errorReason` is what
`Parser::errorReason()` would report). -/
def parseTop (s : String) : Except String (Value × PState) :=
  parseObjectList (2 * s.length + 32) false (mkParser s)

/-- The `ParseResult` of the free function `hcl::parse`. -/
structure ParseResultL where
  value : Value
  errorReason : String
deriving Repr

/-- `hcl::parse`: on a valid value the error string is dropped; otherwise
the parser's `errorReason` is returned alongside the (Null) value. -/
def hclParse (s : String) : Except String ParseResultL :=
  match parseTop s with
  | .error e => .error e
  | .ok (v, st) =>
    if v.validB then .ok ⟨v, ""⟩ else .ok ⟨v, st.errorReason⟩

/-!
Typed accessors: `is<T>` / `as<T>` converters, the `int` narrowing of
`asNumber`, and the `std::vector<T>` converter.
-/

/-- `static_cast<int>(int64_t)`: two's-complement wrap into the 32-bit
signed range, as gcc/clang define it. -/
def int32Wrap (i : Int) : Int :=
  (i + 2 ^ 31) % 2 ^ 32 - 2 ^ 31

/-- `is<int>()` (and `is<int64_t>()`): the INT variant. -/
def Value.isIntB : Value → Bool
  | .int _ => true
  | _ => false

/-- `is<double>()`: the DOUBLE variant. -/
def Value.isDoubleB : Value → Bool
  | .double _ => true
  | _ => false

/-- `as<int>()` = `ValueConverter<int>::to`: `assureType<int>` then
`static_cast<int>(v.int_)`. -/
def Value.asInt : Value → Except String Int
  | .int i => .ok (int32Wrap i)
  | v => .error (assureTypeMsg v "int")

/-- `as<int64_t>()` = `ValueConverter<int64_t>::to`. -/
def Value.asInt64 : Value → Except String Int
  | .int i => .ok i
  | v => .error (assureTypeMsg v "int64_t")

/-- `Value::isNumber()`: `is<int>() || is<double>()`. -/
def Value.isNumber (v : Value) : Bool :=
  v.isIntB || v.isDoubleB

/-- `Value::asNumber()`: for an INT value it returns `as<int>()` —
narrowing the stored `int64_t` through 32-bit `int` — converted to
`double`; every value `int32Wrap` can produce is below `2^53` in magnitude,
so the int-to-double conversion is exact and the result is the rational
`int32Wrap i`.  For a DOUBLE value it returns the stored double. -/
def Value.asNumber : Value → Except String Rat
  | .int i => .ok ((int32Wrap i : Int) : Rat)
  | .double d => .ok d
  | v => .error ("type error: this value is " ++ v.typeToString ++ " but number is requested")

/-- An element converter, standing for one `Value::ValueConverter<T>`
specialisation: the `type_name<T>` string, the `is` predicate, and the
`to` extractor. -/
structure Conv (α : Type) where
  name : String
  is : Value → Bool
  toV : Value → Except String α

/-- The `int64_t` converter instance. -/
def int64Conv : Conv Int :=
  { name := "int64_t", is := Value.isIntB, toV := Value.asInt64 }

/-- `ValueConverter<std::vector<T>>::is`: a LIST whose *first* element (if
any) satisfies `is<T>`; the remaining elements are not inspected. -/
def vectorIs (elemIs : Value → Bool) : Value → Bool
  | .list [] => true
  | .list (x :: _) => elemIs x
  | _ => false

/-- `ValueConverter<std::vector<T>>::to`: `as<List>` (type error on a
non-list), empty list to empty vector, otherwise `assureType<T>` on the
front element and then `as<T>` on every element in order — the first
element whose conversion throws aborts the whole conversion with that
element's diagnostic. -/
def vectorTo (c : Conv α) : Value → Except String (List α)
  | .list [] => .ok []
  | .list (x :: xs) =>
    if c.is x then (x :: xs).mapM c.toV
    else .error (assureTypeMsg x c.name)
  | v => .error (assureTypeMsg v "list")

/-!
Helper facts about the dotted-key walks.  The central notion: a key string
whose throwaway-lexer run yields exactly one `IDENT`/`STRING` token whose
payload is the whole key, followed by `END_OF_FILE`.  Every bare key made of
identifier characters — dots included — is of this shape, which is why the
walks of `find`/`set` treat such keys as one literal segment.
-/

/-- The key string `k` lexes to a single `IDENT` or `STRING` token carrying
`k`'s whole text, followed by end of input — the token calls being exactly
those of `findLoop`/`ensureSetLoop` on a fresh lexer over `k`. -/
def LexesAsSingleIdent (k : String) : Prop :=
  ((nextTokenFull ⟨k.toList, 1, 0⟩).1.type = TokenType.IDENT ∨
    (nextTokenFull ⟨k.toList, 1, 0⟩).1.type = TokenType.STRING) ∧
  (nextTokenFull ⟨k.toList, 1, 0⟩).1.strValue = k ∧
  (nextTokenFull (nextTokenFull ⟨k.toList, 1, 0⟩).2).1.type = TokenType.END_OF_FILE

instance (k : String) : Decidable (LexesAsSingleIdent k) := by
  unfold LexesAsSingleIdent
  infer_instance

theorem findKey_single (v : Value) (k : String) (h : LexesAsSingleIdent k) :
    v.findKey k = v.findChild k := by
  obtain ⟨h1, h2, h3⟩ := h
  simp only [String.toList] at h1 h2 h3
  unfold Value.findKey
  have hfuel : k.length + 2 = (k.length + 1) + 1 := rfl
  cases v with
  | object o =>
    rw [hfuel]
    simp only [Value.isObjectB, if_pos]
    simp only [findLoop]
    rcases h1 with h1 | h1 <;> simp [h1, h2, h3]
  | null => simp [Value.isObjectB, Value.findChild]
  | bool b => simp [Value.isObjectB, Value.findChild]
  | int i => simp [Value.isObjectB, Value.findChild]
  | double d => simp [Value.isObjectB, Value.findChild]
  | str s => simp [Value.isObjectB, Value.findChild]
  | list l => simp [Value.isObjectB, Value.findChild]

theorem updateAtKey_single (o : List (String × Value)) (k : String) (f : Value → Value)
    (h : LexesAsSingleIdent k) :
    (Value.object o).updateAtKey k f =
      match objFind o k with
      | some c => some (Value.object (objSet o k (f c)))
      | none => none := by
  obtain ⟨h1, h2, h3⟩ := h
  simp only [String.toList] at h1 h2 h3
  unfold Value.updateAtKey
  have hfuel : k.length + 2 = (k.length + 1) + 1 := rfl
  rw [hfuel]
  simp only [Value.isObjectB, if_pos]
  simp only [updAtLoop]
  rcases h1 with h1 | h1 <;>
    simp [h1, h2, h3, Value.findChild, Value.objReplace]

theorem setKey_object_single (o : List (String × Value)) (k : String) (x : Value)
    (h : LexesAsSingleIdent k) :
    (Value.object o).setKey k x = .ok (Value.object (objSet o k x)) := by
  obtain ⟨h1, h2, h3⟩ := h
  simp only [String.toList] at h1 h2 h3
  unfold Value.setKey
  have hfuel : k.length + 2 = (k.length + 1) + 1 := rfl
  rw [hfuel]
  simp only [ensureSetLoop]
  rcases h1 with h1 | h1 <;> simp [h1, h2, h3, Value.objReplace]

theorem setKey_null_single (k : String) (x : Value) (h : LexesAsSingleIdent k) :
    (Value.null).setKey k x = .ok (Value.object [(k, x)]) := by
  have := setKey_object_single [] k x h
  simpa [Value.setKey, objSet] using this

/-- The nesting `mergeObjects` builds for the keys after the first, written
directly: `wrapSpec [k2, …, kn] v = {k2: {…: {kn: v}…}}`. -/
def wrapSpec (ks : List String) (v : Value) : Value :=
  ks.foldr (fun k acc => Value.object [(k, acc)]) v

theorem wrapKeys_ok (ks : List String) (v : Value) (h : ∀ k ∈ ks, LexesAsSingleIdent k) :
    ks ≠ [] → wrapKeys ks v = .ok (wrapSpec ks v) := by
  induction ks with
  | nil => intro hne; exact absurd rfl hne
  | cons k rest ih =>
    intro _
    cases rest with
    | nil =>
      have hk := h k (by simp)
      simp [wrapKeys, wrapSpec, setKey_object_single [] k v hk, objSet]
    | cons k2 rest2 =>
      have hk := h k (by simp)
      have htl : ∀ x ∈ k2 :: rest2, LexesAsSingleIdent x := by
        intro x hx; exact h x (by simp [hx])
      have := ih htl (by simp)
      simp [wrapKeys, this, setKey_object_single [] k _ hk, objSet, wrapSpec]

/-- The dispatch rule of `mergeObjects` over an Object accumulator, for
keys that each lex as one literal segment: wrap the added value under the
tail keys, then install under the head key — plain set when absent, append
when a List is present, promotion to a two-element list otherwise. -/
theorem mergeObjects_spec (o : List (String × Value)) (k1 : String) (ks : List String) (v : Value)
    (h1 : LexesAsSingleIdent k1) (hks : ∀ k ∈ ks, LexesAsSingleIdent k) :
    (objFind o k1 = none →
      (Value.object o).mergeObjects (k1 :: ks) v
        = .ok (.object (objSet o k1 (wrapSpec ks v))))
    ∧ (∀ l, objFind o k1 = some (.list l) →
      (Value.object o).mergeObjects (k1 :: ks) v
        = .ok (.object (objSet o k1 (.list (l ++ [wrapSpec ks v])))))
    ∧ (∀ e, objFind o k1 = some e → e.isListB = false →
      (Value.object o).mergeObjects (k1 :: ks) v
        = .ok (.object (objSet o k1 (.list [e, wrapSpec ks v])))) := by
  have hfind : (Value.object o).findKey k1 = objFind o k1 := by
    rw [findKey_single _ _ h1]; rfl
  have hinner : (if ks.length > 0 then wrapKeys ks v else .ok v) = .ok (wrapSpec ks v) := by
    cases ks with
    | nil => simp [wrapSpec]
    | cons a b =>
      rw [if_pos (by simp)]
      exact wrapKeys_ok (a :: b) v hks (by simp)
  refine ⟨?_, ?_, ?_⟩
  · intro habs
    simp [Value.mergeObjects, hinner, hfind, habs, setKey_object_single o k1 _ h1]
  · intro l hlist
    simp [Value.mergeObjects, hinner, hfind, hlist,
      updateAtKey_single o k1 _ h1]
  · intro e hsome hnl
    cases e <;> simp_all [Value.isListB] <;>
      simp [Value.mergeObjects, hinner, hfind, hsome, setKey_object_single o k1 _ h1]

/-!
Claim theorems.
-/

/-- C1: the spec claims parsing is all-or-nothing — an error recorded
during parsing forces a Null value and a non-empty `errorReason`.  The code
violates this: on `a { b = }` the nested object list fails (recording
"Unknown token: }") while the lookahead sits on `RBRACE`, and
`parseObjectType` hands the invalid Null result back as a success without
checking it; the parse returns a *valid* Object `{"a": Null}` and
`hcl::parse` then drops the recorded error, reporting an empty
`errorReason`. -/
theorem claim1_error_swallowed :
    hclParse "a \x7b b = \x7d" = .ok ⟨.object [("a", .null)], ""⟩
    ∧ (parseTop "a \x7b b = \x7d").map (fun p => p.2.errorReason)
      = .ok "Error: line 1: Unknown token: \x7d\n" :=
  ⟨rfl, rfl⟩

/-- C2 counterexample: an Object storing the literal single key
`map.key1` *is* matched by `find("map.key1")` — the key string lexes as
one IDENT token (the period is a valid identifier character), so the claim
that it is never matched is false. -/
theorem claim2_counterexample :
    (Value.object [("map.key1", Value.str "v")]).findKey "map.key1"
      = some (Value.str "v") :=
  rfl

/-- C2 amended: `find` runs the lexer over the key, but a bare dotted key
such as `a.b.c` or `map.key1` lexes as a *single* IDENT token (dots are
identifier characters) and is looked up as one literal child key; descent
through `Period` tokens happens only between separately lexed segments
(e.g. quoted strings), so `find("map.key1")` matches the literal key and
does not descend. -/
theorem claim2_amended :
    (∀ (v : Value) (k : String), LexesAsSingleIdent k → v.findKey k = v.findChild k)
    ∧ (Value.object [("map.key1", Value.str "v")]).findKey "map.key1"
        = some (Value.str "v")
    ∧ (Value.object [("map", Value.object [("key1", Value.str "v")])]).findKey "map.key1"
        = none
    ∧ (Value.object [("a", Value.object [("b", Value.str "z")])]).findKey "\"a\".\"b\""
        = some (Value.str "z") :=
  ⟨fun v k h => findKey_single v k h, rfl, rfl, rfl⟩

/-- C2 witness: the amended rule applied at the literal key `map.key1`. -/
theorem claim2_witness :
    (Value.object [("map.key1", Value.str "v")]).findKey "map.key1"
      = (Value.object [("map.key1", Value.str "v")]).findChild "map.key1" :=
  claim2_amended.1 (Value.object [("map.key1", Value.str "v")]) "map.key1" (by decide)

/-- C3: `mergeObjects` wraps the value under all keys after the first and
installs it under the first key — set when absent, append when a List is
present, promotion to a two-element list otherwise; consequently the two
repeated `foo "bar" { hoge = … }` blocks parse to a list of two nested
objects. -/
theorem claim3_block_fold :
    (∀ (o : List (String × Value)) (k1 : String) (ks : List String) (v : Value),
      LexesAsSingleIdent k1 → (∀ k ∈ ks, LexesAsSingleIdent k) →
      (objFind o k1 = none →
        (Value.object o).mergeObjects (k1 :: ks) v
          = .ok (.object (objSet o k1 (wrapSpec ks v))))
      ∧ (∀ l, objFind o k1 = some (.list l) →
        (Value.object o).mergeObjects (k1 :: ks) v
          = .ok (.object (objSet o k1 (.list (l ++ [wrapSpec ks v])))))
      ∧ (∀ e, objFind o k1 = some e → e.isListB = false →
        (Value.object o).mergeObjects (k1 :: ks) v
          = .ok (.object (objSet o k1 (.list [e, wrapSpec ks v])))))
    ∧ hclParse "foo \"bar\" \x7b hoge = \"piyo\" \x7d\nfoo \"bar\" \x7b hoge = \"fuge\" \x7d\n"
      = .ok ⟨.object [("foo", .list
          [.object [("bar", .object [("hoge", .str "piyo")])],
           .object [("bar", .object [("hoge", .str "fuge")])]])], ""⟩ :=
  ⟨fun o k1 ks v h1 hks => mergeObjects_spec o k1 ks v h1 hks, rfl⟩

/-- C3 witness: the fold rule applied concretely — a non-List value under
`foo` is promoted to the two-element list, with the new block wrapped
under its second key. -/
theorem claim3_witness :
    (Value.object [("foo", Value.str "x")]).mergeObjects ["foo", "bar"] (Value.int 3)
      = .ok (.object [("foo", .list [Value.str "x",
          .object [("bar", Value.int 3)]])]) :=
  ((claim3_block_fold.1 [("foo", Value.str "x")] "foo" ["bar"] (Value.int 3)
      (by decide) (by decide)).2.2 (Value.str "x") rfl rfl)

/-- C4 counterexample: from an empty value, `set("a.b", 1)` then
`set("a.c", 2)` yields the flat Object with the two literal keys `a.b` and
`a.c` — there is no child `a`, contradicting the claimed
`Object{"a": Object{"b": 1, "c": 2}}`. -/
theorem claim4_counterexample :
    ((Value.null).setKey "a.b" (Value.int 1) >>= fun v1 => v1.setKey "a.c" (Value.int 2))
      = .ok (.object [("a.b", Value.int 1), ("a.c", Value.int 2)])
    ∧ (Value.object [("a.b", Value.int 1), ("a.c", Value.int 2)]).findChild "a" = none :=
  ⟨rfl, rfl⟩

/-- C4 amended: `set` walks/creates Object nodes only between
`Period`-separated *lexed* segments; a bare dotted key lexes as one IDENT
segment and is installed literally, so the two sets yield
`Object{"a.b": 1, "a.c": 2}`.  Keys with quoted segments do nest. -/
theorem claim4_amended :
    (∀ (o : List (String × Value)) (k : String) (x : Value), LexesAsSingleIdent k →
      (Value.object o).setKey k x = .ok (.object (objSet o k x)))
    ∧ ((Value.null).setKey "a.b" (Value.int 1) >>= fun v1 => v1.setKey "a.c" (Value.int 2))
        = .ok (.object [("a.b", Value.int 1), ("a.c", Value.int 2)])
    ∧ (Value.null).setKey "\"a\".\"b\"" (Value.int 1)
        = .ok (.object [("a", .object [("b", Value.int 1)])]) :=
  ⟨fun o k x h => setKey_object_single o k x h, rfl, rfl⟩

/-- C4 witness: the literal-segment rule applied at `a.b` over an empty
object. -/
theorem claim4_witness :
    (Value.object []).setKey "a.b" (Value.int 1)
      = .ok (.object (objSet [] "a.b" (Value.int 1))) :=
  claim4_amended.1 [] "a.b" (Value.int 1) (by decide)

/-- C5: the spec's indented-heredoc example (`hoge = <<-EOF` with
four-space body lines) is expected — also by the repository's own
"parse indented heredoc" test — to succeed with
`Object{"hoge": "Hello\n  World\n"}`.  The code instead computes the strip
width from the column at which `<<` begins (7 here, after `hoge = `), so
the four-space body line is rejected as under-indented and the parse
fails; the same body indented by seven spaces does produce exactly the
expected string. -/
theorem claim5_heredoc_indent_bug :
    hclParse "hoge = <<-EOF\n    Hello\n      World\n    EOF\n"
      = .ok ⟨.null, "Error: line 2: Unknown token: expected heredoc to be properly indented\n"⟩
    ∧ hclParse "hoge = <<-EOF\n       Hello\n         World\n       EOF\n"
      = .ok ⟨.object [("hoge", .str "Hello\n  World\n")], ""⟩ :=
  ⟨rfl, rfl⟩

/-- C6 counterexample: on `a { , }` the parser records two errors and the
returned `errorReason` is their concatenation, not the first alone — later
errors are appended, not suppressed. -/
theorem claim6_counterexample :
    hclParse "a \x7b , \x7d"
      = .ok ⟨.null,
        "Error: line 1: expected IDENT | STRING | ASSIGN | LBRACE got: ,\n" ++
        "Error: line 1: failed parsing object list\n"⟩ :=
  rfl

/-- C6 amended: `addError` *appends* each formatted message to
`errorReason`, so after parsing the string contains every reported error in
order, the first at the front (nothing is suppressed). -/
theorem claim6_amended :
    (∀ (st : PState) (r : String),
      (addError st r).errorReason = st.errorReason ++ errLine st.lex.lineNo r)
    ∧ hclParse "a \x7b , \x7d"
      = .ok ⟨.null,
        "Error: line 1: expected IDENT | STRING | ASSIGN | LBRACE got: ,\n" ++
        "Error: line 1: failed parsing object list\n"⟩ :=
  ⟨fun _ _ => rfl, rfl⟩

/-- C7: while the interpolation brace counter is positive a raw newline is
accepted and becomes a literal byte of the payload (one loop step of the
double-quoted-string lexer), the resulting STRING token keeps the
interpolation verbatim including the surrounding dollar-brace wrapper, and
a raw newline outside any interpolation is an error. -/
theorem claim7_interpolation_newline :
    lexFirstToken "\"$\x7bhello\n world\x7d\""
      = { type := .STRING, strValue := "$\x7bhello\n world\x7d" }
    ∧ (∀ (fuel : Nat) (st : LexState) (s : List Char) (braces : Nat) (dollar : Bool),
        0 < braces → lcurrent st = some '\n' →
        dqLoop (fuel + 1) st s braces dollar
          = dqLoop fuel (lnext st) (s ++ ['\n']) braces false)
    ∧ lexFirstToken "\"ab\ncd\""
      = illegalTok "found newline while parsing non-HIL string literal" := by
  refine ⟨rfl, ?_, rfl⟩
  intro fuel st s braces dollar hb hc
  have hb0 : (braces == 0) = false := by
    simp [Nat.pos_iff_ne_zero] at hb ⊢
    exact hb
  simp only [dqLoop, hc]
  simp [hb0, Nat.pos_iff_ne_zero.mp hb]

/-- C7 witness: the in-interpolation newline step applied concretely. -/
theorem claim7_witness :
    0 < 1 ∧ lcurrent ⟨['\n', '"'], 1, 0⟩ = some '\n'
    ∧ dqLoop (3 + 1) ⟨['\n', '"'], 1, 0⟩ ['h'] 1 false
      = dqLoop 3 (lnext ⟨['\n', '"'], 1, 0⟩) (['h'] ++ ['\n']) 1 false :=
  ⟨by decide, rfl,
    claim7_interpolation_newline.2.1 3 ⟨['\n', '"'], 1, 0⟩ ['h'] 1 false (by decide) rfl⟩

/-- C8 counterexample: the 20-nine literal does not fit in `int64_t`, yet
the lexer produces a NUMBER token (not an Illegal one). -/
theorem claim8_counterexample :
    (lexFirstToken "99999999999999999999").type = TokenType.NUMBER :=
  rfl

/-- C8 amended: integer overflow is *not* detected — the stream extraction
clamps the out-of-range value to the `int64_t` extreme and the lexer hands
that clamped value out in a NUMBER token, while in-range literals are read
exactly. -/
theorem claim8_amended :
    lexFirstToken "99999999999999999999" = { type := .NUMBER, intValue := int64Max }
    ∧ lexFirstToken "-99999999999999999999" = { type := .NUMBER, intValue := int64Min }
    ∧ lexFirstToken "9223372036854775807"
      = { type := .NUMBER, intValue := 9223372036854775807 } :=
  ⟨rfl, rfl, rfl⟩

/-- C9: `asNumber` on an INT value goes through `as<int>`, narrowing the
stored 64-bit integer to 32 bits by two's-complement wrap before the exact
int-to-double conversion: values inside the 32-bit range come back
unchanged, values outside it come back as the wrapped 32-bit result, never
as the stored 64-bit value. -/
theorem claim9_asNumber_narrowing (i : Int) :
    Value.asNumber (.int i) = .ok ((int32Wrap i : Int) : Rat)
    ∧ (-(2 ^ 31) ≤ i ∧ i < 2 ^ 31 → int32Wrap i = i)
    ∧ ((i < -(2 ^ 31) ∨ 2 ^ 31 ≤ i) → int32Wrap i ≠ i) := by
  refine ⟨rfl, ?_, ?_⟩
  · intro h
    unfold int32Wrap
    omega
  · intro h
    unfold int32Wrap
    omega

/-- C9 witness: `2^32` wraps to 0 (≠ the stored value) while 5 survives. -/
theorem claim9_witness :
    Value.asNumber (.int 4294967296) = .ok ((int32Wrap 4294967296 : Int) : Rat)
    ∧ int32Wrap 5 = 5
    ∧ int32Wrap 4294967296 ≠ 4294967296 :=
  ⟨(claim9_asNumber_narrowing 4294967296).1,
   (claim9_asNumber_narrowing 5).2.1 (by decide),
   (claim9_asNumber_narrowing 4294967296).2.2 (Or.inr (by decide))⟩

/-- C10: `is<std::vector<T>>` on a non-empty List inspects only the first
element, so a heterogeneous list whose head matches still satisfies it,
and `as<std::vector<T>>` on such a list then fails at the first
mismatching element (here: the string at index 1, not the bool at
index 2). -/
theorem claim10_vector_first_element :
    (∀ (elemIs : Value → Bool) (x : Value) (xs : List Value),
      vectorIs elemIs (.list (x :: xs)) = elemIs x)
    ∧ vectorIs Value.isIntB (.list [.int 1, .str "a", .bool true]) = true
    ∧ vectorTo int64Conv (.list [.int 1, .str "a", .bool true])
      = .error "type error: this value is string but int64_t was requested"
    ∧ vectorTo int64Conv (.list [.int 1, .int 7]) = .ok [1, 7] :=
  ⟨fun _ _ _ => rfl, rfl, rfl, rfl⟩

end MicroHCL
